import Mathlib

/-!
Verification of the `infinity-core` / `infinity_api` client library.

The development shallowly embeds the algorithmic core of the repository:

* `InfinityApi`: the legacy iterative batch-submission protocol of
  `infinity_api/batch.py` (`_submit_jobs`, `submit_batch_to_api`), with the
  remote service abstracted as a response oracle indexed by the number of
  POST requests issued so far.
* `InfinityCore`: the session layer of `infinity_core/session.py`
  (`Session._validate_params`, `default_job`, `random_job`, `Session.submit`)
  and the batch layer of `infinity_core/batch.py`
  (`get_batch_summary_data`, `get_job_summary_data`, the `download`
  failure accounting, `submit_batch`).

Python runtime values are modelled by `PValue` (floats as rationals, which is
exact for every comparison the claims exercise); Python dicts are association
lists built exclusively through `dictInsert`, which reproduces dict update
semantics (replace in place, else append).  Code that can raise is embedded
in `Except`.
-/

namespace Spec2Proof

/-- A Python runtime value as it occurs in job parameters, defaults and
constraint options.  Floats are modelled as rationals. -/
inductive PValue where
  | vStr (s : String)
  | vInt (n : Int)
  | vFloat (q : Rat)
  | vBool (b : Bool)
  | vNull
deriving DecidableEq, Repr

/-- The Python runtime type tags relevant to the validator. -/
inductive PyTy where
  | tyStr
  | tyInt
  | tyFloat
  | tyBool
  | tyNone
deriving DecidableEq, Repr

/-- The runtime type of a value, i.e. Python `type(uv)`. -/
def PValue.runtimeTy : PValue → PyTy
  | .vStr _ => .tyStr
  | .vInt _ => .tyInt
  | .vFloat _ => .tyFloat
  | .vBool _ => .tyBool
  | .vNull => .tyNone

/-- Python `isinstance(v, t)`.  In Python, `bool` is a subclass of `int`, so
`isinstance(True, int)` is `True`; every other case is an exact tag match. -/
def pyIsInstance (v : PValue) (t : PyTy) : Bool :=
  match v, t with
  | .vBool _, .tyInt => true
  | v, t => v.runtimeTy == t

/-- Numeric view of a value: Python treats `bool` as the integers 0 and 1 in
arithmetic comparisons; `int` and `float` are numeric; `str` and `None` are
not. -/
def pyNumVal : PValue → Option Rat
  | .vInt n => some (n : Rat)
  | .vFloat q => some q
  | .vBool b => some (if b then 1 else 0)
  | _ => none

/-- Python `==` between values: numeric values compare numerically across
`int`/`float`/`bool`, strings compare as strings, `None` equals only
`None`, and cross-kind comparisons are `False` (never an error). -/
def pyEq (a b : PValue) : Bool :=
  match pyNumVal a, pyNumVal b with
  | some x, some y => x == y
  | _, _ =>
    match a, b with
    | .vStr s, .vStr t => s == t
    | .vNull, .vNull => true
    | _, _ => false

/-- Python `x in xs` for a list, which tests `==` against each element. -/
def pyMem (v : PValue) (xs : List PValue) : Bool :=
  xs.any (fun x => pyEq x v)

/-- Left-biased choice on `Option`, i.e. `a` if present else `b`. -/
def optOr {α : Type} (a b : Option α) : Option α :=
  match a with
  | some v => some v
  | none => b

/-- A Python dict is modelled as an association list in insertion order.
Dicts built by the embedded code never hold a key twice. -/
abbrev PyDict (α : Type) := List (String × α)

/-- Dict lookup `d[k]` (as an `Option`; callers model `KeyError` where the
source can raise it). -/
def dlookup {α : Type} (k : String) : PyDict α → Option α
  | [] => none
  | (k', v) :: t => if k = k' then some v else dlookup k t

/-- Python dict item assignment `d[k] = v`: if the key is present its value
is replaced in place (keeping its position), otherwise the pair is appended
at the end.  On duplicate-free lists this is exactly dict update. -/
def dictInsert {α : Type} (d : PyDict α) (k : String) (v : α) : PyDict α :=
  match d with
  | [] => [(k, v)]
  | (k', w) :: t => if k' = k then (k, v) :: t else (k', w) :: dictInsert t k v

/-- Building a Python dict from a sequence of items (dict literals,
comprehensions and `\x7b**a, **b\x7d` unpacking all do exactly this). -/
def pyDictOfItems {α : Type} (l : List (String × α)) : PyDict α :=
  l.foldl (fun d kv => dictInsert d kv.1 kv.2) []

/-- Python `\x7b**a, **b\x7d`: a fresh dict holding the items of `a` then of
`b`, later occurrences of a key overwriting earlier ones. -/
def pyMerge {α : Type} (a b : PyDict α) : PyDict α :=
  pyDictOfItems (a ++ b)

/-- Keys of a dict, in order. -/
def dictKeys {α : Type} (d : PyDict α) : List String := d.map Prod.fst

namespace InfinityCore

/-! Embedding of `infinity_core/session.py`. -/

/-- A Python error that `Session._validate_params` can actually raise. -/
inductive PyErr where
  | keyError (key : String)
  | typeError (msg : String)
  | indexError
deriving DecidableEq, Repr

/-- The `options` sub-dict of one `parameter_info` entry.  Per the generator
data model, `min`/`max` are numeric bounds and `choices` is a finite list of
values; each key is optional. -/
structure ParamOptions where
  min? : Option Rat
  max? : Option Rat
  choices? : Option (List PValue)
deriving DecidableEq, Repr

/-- One entry of `Session.parameter_info`: the dict
`("type": ty, "default_value": dv, "options": op)` where `ty` and `op` are
produced with `.get` and may be `None` (modelled as `none`), and a missing
`default_value` is Python `None` (modelled as `PValue.vNull`). -/
structure ParamSpec where
  type : Option String
  default_value : PValue
  options : Option ParamOptions
deriving DecidableEq, Repr

/-- The `ty_str_to_allowed_python_ty_set` dict of `_validate_params`;
`none` models a `KeyError` on lookup of an unknown type string. -/
def tyStrToAllowedPythonTySet : String → Option (List PyTy)
  | "str" => some [.tyStr]
  | "int" => some [.tyInt]
  | "float" => some [.tyFloat]
  | "bool" => some [.tyBool]
  | "uuid" => some [.tyStr, .tyNone]
  | _ => none

/-- The lookup `ty_str_to_allowed_python_ty_set[pinfo[uk]["type"]]`, which
raises `KeyError` when the declared type is absent or unrecognized. -/
def expectedTypesOf (ty : Option String) : Except PyErr (List PyTy) :=
  match ty with
  | none => .error (.keyError "None")
  | some t =>
    match tyStrToAllowedPythonTySet t with
    | some e => .ok e
    | none => .error (.keyError t)

/-- The `is_proper_type = any([isinstance(uv, ty) for ty in expected_types])`
check. -/
def isProperType (expected : List PyTy) (v : PValue) : Bool :=
  expected.any (fun t => pyIsInstance v t)

/-- An element of `type_violation_list`: `(uk, type(uv), expected_types)`. -/
structure TypeViolation where
  name : String
  actual : PyTy
  expected : List PyTy
deriving DecidableEq, Repr

/-- An element of `constraint_violation_list`:
`(uk, "min" | "max" | "choices", cv, uv)`. -/
inductive ConstraintViolation where
  | minViol (name : String) (bound : Rat) (actual : PValue)
  | maxViol (name : String) (bound : Rat) (actual : PValue)
  | choicesViol (name : String) (choices : List PValue) (actual : PValue)
deriving DecidableEq, Repr

/-- Python `uv < cv` against a numeric bound: numeric values (including
bools) compare; strings and `None` raise `TypeError`. -/
def pyLtNum (v : PValue) (bound : Rat) : Except PyErr Bool :=
  match pyNumVal v with
  | some q => .ok (decide (q < bound))
  | none => .error (.typeError "unorderable types")

/-- Python `uv > cv` against a numeric bound. -/
def pyGtNum (v : PValue) (bound : Rat) : Except PyErr Bool :=
  match pyNumVal v with
  | some q => .ok (decide (bound < q))
  | none => .error (.typeError "unorderable types")

/-- The `"choices"` block of the constraint checks (membership by Python
`==`; never raises). -/
def checkChoicesPart (uk : String) (uv : PValue) (opts : ParamOptions)
    (acc : List ConstraintViolation) : List ConstraintViolation :=
  match opts.choices? with
  | some cs => if pyMem uv cs then acc else acc ++ [.choicesViol uk cs uv]
  | none => acc

/-- The `"max"` block of the constraint checks followed by the
`"choices"` block. -/
def checkMaxPart (uk : String) (uv : PValue) (opts : ParamOptions)
    (acc : List ConstraintViolation) : Except PyErr (List ConstraintViolation) :=
  match opts.max? with
  | some b =>
    match pyGtNum uv b with
    | .error e => .error e
    | .ok gt =>
      .ok (checkChoicesPart uk uv opts (if gt then acc ++ [.maxViol uk b uv] else acc))
  | none => .ok (checkChoicesPart uk uv opts acc)

/-- The three sequential constraint checks of `_validate_params` for one
parameter (`min`, then `max`, then `choices`; all three run even if an
earlier one found a violation). -/
def checkConstraints (uk : String) (uv : PValue) (opts : ParamOptions) :
    Except PyErr (List ConstraintViolation) :=
  match opts.min? with
  | some b =>
    match pyLtNum uv b with
    | .error e => .error e
    | .ok lt => checkMaxPart uk uv opts (if lt then [.minViol uk b uv] else [])
  | none => checkMaxPart uk uv opts []

/-- Python `set.add` modelled in insertion order (the set holds no
duplicates; its iteration order is unspecified in Python). -/
def setAdd (s : List String) (k : String) : List String :=
  if k ∈ s then s else s ++ [k]

/-- The main loop of `Session._validate_params` over `user_params.items()`,
carrying the three violation buckets.  An unsupported key is recorded and
the loop continues; a type violation is recorded and the loop continues; a
parameter whose spec has `options = None` makes Python evaluate
`"min" in None`, raising `TypeError`, and an absent/unknown declared type
raises `KeyError` at the `ty_str_to_allowed_python_ty_set` lookup. -/
def validateLoop (pinfo : PyDict ParamSpec) :
    List (String × PValue) → List String → List TypeViolation →
      List ConstraintViolation →
      Except PyErr (List String × List TypeViolation × List ConstraintViolation)
  | [], unsup, tv, cv => .ok (unsup, tv, cv)
  | (uk, uv) :: rest, unsup, tv, cv =>
    match dlookup uk pinfo with
    | none => validateLoop pinfo rest (setAdd unsup uk) tv cv
    | some spec =>
      match expectedTypesOf spec.type with
      | .error e => .error e
      | .ok expected =>
        if isProperType expected uv then
          match spec.options with
          | none => .error (.typeError "argument of type NoneType is not iterable")
          | some opts =>
            match checkConstraints uk uv opts with
            | .error e => .error e
            | .ok newCv => validateLoop pinfo rest unsup tv (cv ++ newCv)
        else
          validateLoop pinfo rest unsup (tv ++ [⟨uk, uv.runtimeTy, expected⟩]) cv

/-- The three violation buckets computed by `Session._validate_params`. -/
def validateBuckets (pinfo : PyDict ParamSpec) (userParams : PyDict PValue) :
    Except PyErr (List String × List TypeViolation × List ConstraintViolation) :=
  validateLoop pinfo userParams [] [] []

/-- Python name of a runtime type, used in the formatted error string. -/
def pyTyName : PyTy → String
  | .tyStr => "str"
  | .tyInt => "int"
  | .tyFloat => "float"
  | .tyBool => "bool"
  | .tyNone => "NoneType"

/-- Display form of a value for the formatted error string. -/
def pvalueRepr : PValue → String
  | .vStr s => s
  | .vInt n => toString n
  | .vFloat q => toString q
  | .vBool b => if b then "True" else "False"
  | .vNull => "None"

/-- Display form of a list of type tags. -/
def listTyRepr (l : List PyTy) : String :=
  "[" ++ String.intercalate ", " (l.map pyTyName) ++ "]"

/-- Display form of a list of values. -/
def listValRepr (l : List PValue) : String :=
  "[" ++ String.intercalate ", " (l.map pvalueRepr) ++ "]"

/-- One line of the constraint-violation section of the error string. -/
def fmtConstraintLine : ConstraintViolation → String
  | .minViol p b v =>
    "Input parameter `" ++ p ++ "` violated constraint `min` (" ++ toString b
      ++ ") with value " ++ pvalueRepr v ++ "\n"
  | .maxViol p b v =>
    "Input parameter `" ++ p ++ "` violated constraint `max` (" ++ toString b
      ++ ") with value " ++ pvalueRepr v ++ "\n"
  | .choicesViol p cs v =>
    "Input parameter `" ++ p ++ "` violated constraint `choices` ("
      ++ listValRepr cs ++ ") with value " ++ pvalueRepr v ++ "\n"

/-- The `error_string` assembled by `_validate_params` from the three
buckets (value reprs abstract Python's exact `repr`). -/
def formatValidationError (unsup : List String) (tv : List TypeViolation)
    (cv : List ConstraintViolation) : String :=
  (if unsup.isEmpty then "" else
    "\n\nUnsupported parameters:\n"
      ++ String.join (unsup.map (fun p => "`" ++ p ++ "`"))) ++
  (if tv.isEmpty then "" else
    "\n\nType violations:\n"
      ++ String.join (tv.map (fun t =>
        "Input parameter `" ++ t.name ++ "` expected one of compatible type(s) `"
          ++ listTyRepr t.expected ++ "`, got `" ++ pyTyName t.actual ++ "`\n"))) ++
  (if cv.isEmpty then "" else
    "\n\nConstraint violations:\n" ++ String.join (cv.map fmtConstraintLine))

/-- `Session._validate_params`: `none` means the parameters are valid, a
string is the aggregated violation report, and `.error` is a raised Python
error. -/
def validateParams (pinfo : PyDict ParamSpec) (userParams : PyDict PValue) :
    Except PyErr (Option String) :=
  match validateBuckets pinfo userParams with
  | .error e => .error e
  | .ok (unsup, tv, cv) =>
    if unsup.isEmpty && tv.isEmpty && cv.isEmpty then .ok none
    else .ok (some (formatValidationError unsup tv cv))

/-- `Session.validate_job_params`: one result per job-parameter dict; a
raised error propagates. -/
def validateJobParams (pinfo : PyDict ParamSpec)
    (jobParamsList : List (PyDict PValue)) : Except PyErr (List (Option String)) :=
  jobParamsList.mapM (fun jp => validateParams pinfo jp)

/-- `Session.default_job`: the dict comprehension
`(k: d["default_value"] for k, d in parameter_info.items())`. -/
def defaultJob (pinfo : PyDict ParamSpec) : PyDict PValue :=
  pyDictOfItems (pinfo.map (fun kv => (kv.1, kv.2.default_value)))

/-- The random source used by `Session.random_job`, abstracted as a
deterministic oracle: `random.choice`, `random.randint`, `random.uniform`. -/
structure Sampler where
  choice : List PValue → PValue
  randint : Rat → Rat → Int
  uniform : Rat → Rat → Rat

/-- The per-parameter body of `Session.random_job`: draw from `choices` if
present, else uniformly from `[min, max]` when both bounds are present and
the declared type is `int` or `float`, else use the default value. -/
def randomJobEntry (rng : Sampler) (spec : ParamSpec) : PValue :=
  match spec.options with
  | some opts =>
    match opts.choices? with
    | some cs => rng.choice cs
    | none =>
      match opts.min?, opts.max? with
      | some mn, some mx =>
        if spec.type == some "int" then .vInt (rng.randint mn mx)
        else if spec.type == some "float" then .vFloat (rng.uniform mn mx)
        else spec.default_value
      | _, _ => spec.default_value
  | none => spec.default_value

/-- `Session.random_job`: a dict built over `parameter_info` in order. -/
def randomJob (rng : Sampler) (pinfo : PyDict ParamSpec) : PyDict PValue :=
  pyDictOfItems (pinfo.map (fun kv => (kv.1, randomJobEntry rng kv.2)))

/-- The per-job completion step of `Session.submit`:
`(**random_job, **jp)` when sampling, `(**default_job, **jp)` otherwise
(written with dict-unpacking braces in the source). -/
def completeOne (pinfo : PyDict ParamSpec) (rng : Sampler)
    (randomSample : Bool) (jp : PyDict PValue) : PyDict PValue :=
  if randomSample then pyMerge (randomJob rng pinfo) jp
  else pyMerge (defaultJob pinfo) jp

end InfinityCore

/-- The `JobType` enum shared by both module generations. -/
inductive JobType where
  | PREVIEW
  | STANDARD
deriving DecidableEq, Repr

namespace InfinityApi

/-! Embedding of `infinity_api/batch.py` (`_submit_jobs`,
`submit_batch_to_api`).  The remote service is abstracted as an oracle
`svc : Nat → ApiResponse` giving the response to the i-th POST request
issued by the submission loop (each job-parameter set is POSTed exactly
once, in input order).  The job-type dispatch selects `api.post_preview`
or `api.post_standard_job` — an endpoint choice absorbed into the oracle —
and both enum variants are supported, so the `ValueError` branch for an
unsupported job type is unreachable.  File writes (`write_temp_file`) and
the pacing sleep (`request_delay`) are I/O with no effect on the returned
data and are not modelled. -/

/-- The parts of an HTTP response that `_submit_jobs` inspects: `r.ok`,
`r.status_code`, and the JSON payload fields `batch_id` and `id`. -/
structure ApiResponse where
  ok : Bool
  status_code : Nat
  batch_id : String
  id : String
deriving DecidableEq, Repr

/-- The `json_data` payload POSTed for one job: `name` (generator),
`param_values`, and — only once a batch id is known — `batch_id`. -/
structure JobRequestPayload (P : Type) where
  name : String
  param_values : P
  batch_id : Option String
deriving DecidableEq, Repr

/-- `SuccessfulJobRequest` of `infinity_api/data_structures.py`. -/
structure SuccessfulJobRequest (P : Type) where
  job_id : String
  params : P
deriving DecidableEq, Repr

/-- `FailedJobRequest` of `infinity_api/data_structures.py`. -/
structure FailedJobRequest (P : Type) where
  status_code : Nat
  params : P
deriving DecidableEq, Repr

/-- Result of phase 1 of `_submit_jobs` (the `batch_uid is None` loop that
seeks the first accepted submission). -/
inductive SeekOutcome (P : Type) where
  | found (batchUid : String) (firstSuccess : SuccessfulJobRequest P)
      (failed : List (FailedJobRequest P)) (sent : List (JobRequestPayload P))
      (remaining : List P) (jidx : Nat)
  | exhausted (failed : List (FailedJobRequest P))
      (sent : List (JobRequestPayload P)) (lastStatus : Option Nat)
deriving DecidableEq, Repr

/-- Phase 1 of `_submit_jobs`: POST each parameter set without a batch id
until the first `r.ok` response; on success capture `batch_id` and `id`
from its JSON and stop; on failure record `(status_code, params)` and
continue.  `jidx` counts requests issued so far (also the index into the
oracle); `lastStatus` tracks the status of the last response obtained. -/
def seekFirstSuccess (svc : Nat → ApiResponse) (generator : String) :
    List P → Nat → List (FailedJobRequest P) → List (JobRequestPayload P) →
      Option Nat → SeekOutcome P
  | [], _, failed, sent, lastSt => .exhausted failed sent lastSt
  | p :: rest, jidx, failed, sent, _ =>
    let r := svc jidx
    if r.ok then
      .found r.batch_id ⟨r.id, p⟩ failed (sent ++ [⟨generator, p, none⟩])
        rest (jidx + 1)
    else
      seekFirstSuccess svc generator rest (jidx + 1)
        (failed ++ [⟨r.status_code, p⟩]) (sent ++ [⟨generator, p, none⟩])
        (some r.status_code)

/-- Phase 2 of `_submit_jobs`: POST every remaining parameter set with the
obtained `batch_id` attached; record each success or failure and never
abort.  Returns the newly recorded successes, failures and sent payloads,
in submission order. -/
def submitWithBatchId (svc : Nat → ApiResponse) (generator : String)
    (batchUid : String) :
    List P → Nat →
      List (SuccessfulJobRequest P) × List (FailedJobRequest P) ×
        List (JobRequestPayload P)
  | [], _ => ([], [], [])
  | p :: rest, jidx =>
    let r := svc jidx
    let rec0 := submitWithBatchId svc generator batchUid rest (jidx + 1)
    if r.ok then
      (⟨r.id, p⟩ :: rec0.1, rec0.2.1, ⟨generator, p, some batchUid⟩ :: rec0.2.2)
    else
      (rec0.1, ⟨r.status_code, p⟩ :: rec0.2.1,
        ⟨generator, p, some batchUid⟩ :: rec0.2.2)

/-- The error raised when every submission of phase 1 failed.  When at
least one response was obtained the Python code re-raises its
`raise_for_status` error inside a
`ValueError("All batch jobs failed in submission; last error: ...")`,
carrying the last attempt's HTTP detail (`lastStatus = some code`); when no
response was ever obtained (empty job list) the same `ValueError` is raised
with no HTTP detail (`lastStatus = none`). -/
inductive SubmitError where
  | allJobsFailed (lastStatus : Option Nat)
deriving DecidableEq, Repr

/-- `_submit_jobs`: returns the batch id, the successful records, the
failed records (in submission order), and the trace of POSTed payloads.
With `batchUid = none` it runs phase 1 then phase 2; with a known batch id
(resumption) it runs phase 2 over the whole list. -/
def submitJobs (svc : Nat → ApiResponse) (generator : String)
    (jobParams : List P) (batchUid : Option String) :
    Except SubmitError
      (String × List (SuccessfulJobRequest P) × List (FailedJobRequest P) ×
        List (JobRequestPayload P)) :=
  match batchUid with
  | some buid =>
    let rec0 := submitWithBatchId svc generator buid jobParams 0
    .ok (buid, rec0.1, rec0.2.1, rec0.2.2)
  | none =>
    match seekFirstSuccess svc generator jobParams 0 [] [] none with
    | .exhausted _ _ lastSt => .error (.allJobsFailed lastSt)
    | .found buid firstSuccess failed sent rest jidx =>
      let rec0 := submitWithBatchId svc generator buid rest jidx
      .ok (buid, firstSuccess :: rec0.1, failed ++ rec0.2.1, sent ++ rec0.2.2)

/-- `Batch` of `infinity_api/batch.py` restricted to the fields the
submission claims inspect. -/
structure ApiBatch (P : Type) where
  uid : String
  jobs : List (SuccessfulJobRequest P)
  failed_requests : List (FailedJobRequest P)
  generator : String
  job_type : JobType
deriving DecidableEq, Repr

/-- Errors raised by `submit_batch_to_api`. -/
inductive ApiError where
  | emptyToken
  | emptyGenerator
  | submitFailed (e : SubmitError)
deriving DecidableEq, Repr

/-- `submit_batch_to_api`: rejects an empty token or generator, then runs
`_submit_jobs` with no batch id, wrapping the result into a `Batch`.  No
batch is produced when `_submit_jobs` raises. -/
def submitBatchToApi (svc : Nat → ApiResponse) (token generator : String)
    (jobType : JobType) (jobParams : List P) : Except ApiError (ApiBatch P) :=
  if token = "" then .error .emptyToken
  else if generator = "" then .error .emptyGenerator
  else
    match submitJobs svc generator jobParams none with
    | .error e => .error (.submitFailed e)
    | .ok (buid, succ, failed, _) =>
      .ok ⟨buid, succ, failed, generator, jobType⟩

end InfinityApi

namespace InfinityCore

/-! Embedding of `infinity_core/batch.py` and `Session.submit`. -/

/-- Job parameters: a Python dict of values. -/
abbrev JobParams := PyDict PValue

/-- One element of the `params` list of the generator-info JSON, with the
fields read by `Session.parameter_info` (`name` plus `.get` accesses). -/
structure GenParam where
  name : String
  type : Option String
  default_value : PValue
  options : Option ParamOptions
deriving DecidableEq, Repr

/-- The `_generator_info` JSON fetched at session construction: its
`params` list and its optional `options` dict (read by the preview check in
`Session.submit`). -/
structure GenInfo where
  params : List GenParam
  options : Option (PyDict PValue)
deriving DecidableEq, Repr

/-- `Session.parameter_info`: the dict
`(p["name"]: ("type": ..., "default_value": ..., "options": ...))` built
over `_generator_info["params"]` in order. -/
def parameterInfo (gi : GenInfo) : PyDict ParamSpec :=
  gi.params.foldl
    (fun d p => dictInsert d p.name ⟨p.type, p.default_value, p.options⟩) []

/-- The preview gate of `Session.submit`: previews are allowed only when
`_generator_info` has an `options` dict whose `preview` entry is the bool
`True` (the source tests `is True`). -/
def previewAllowed (gi : GenInfo) : Bool :=
  match gi.options with
  | some od =>
    match dlookup "preview" od with
    | some (.vBool true) => true
    | _ => false
  | none => false

/-- Errors of the `infinity_core` batch layer. -/
inductive CoreErr where
  | httpError (status : Nat)
  | jobRetrival (jobId : String)
  | downloadError (failedJobs : List String)
  | indexError
  | valueError (what : String)
deriving DecidableEq, Repr

/-- The parts of an HTTP response the batch layer inspects. -/
structure HttpResponse (α : Type) where
  ok : Bool
  status_code : Nat
  body : α
deriving DecidableEq, Repr

/-- One entry of the `job_runs` list of the batch-summary JSON. -/
structure JobRunSummary where
  id : String
  in_progress : Bool
  result_url : Option String
deriving DecidableEq, Repr

/-- The batch-summary JSON returned by `GET api/batch/summary/(batch_id)/`. -/
structure BatchSummary where
  job_runs : List JobRunSummary
deriving DecidableEq, Repr

/-- `Batch` of `infinity_core/batch.py` (fields the claims inspect). -/
structure CoreBatch where
  token : String
  batch_id : String
  name : String
  jobs : PyDict JobParams
  server : String
  job_type : JobType
deriving DecidableEq, Repr

/-- `Batch.num_jobs`. -/
def CoreBatch.num_jobs (b : CoreBatch) : Nat := b.jobs.length

/-- `Batch.get_batch_summary_data`: `raise_for_status()` then `r.json()`,
returned unchanged — there is no inspection of the number of jobs. -/
def getBatchSummaryData (_b : CoreBatch) (resp : HttpResponse BatchSummary) :
    Except CoreErr BatchSummary :=
  if resp.ok then .ok resp.body else .error (.httpError resp.status_code)

/-- `Batch.get_job_summary_data`: scan the summary's `job_runs` for the
requested id; raise `JobRetrivalError` when it is absent. -/
def getJobSummaryData (b : CoreBatch) (resp : HttpResponse BatchSummary)
    (jobId : String) : Except CoreErr JobRunSummary :=
  match getBatchSummaryData b resp with
  | .error e => .error e
  | .ok s =>
    match s.job_runs.find? (fun jr => jr.id == jobId) with
    | some jr => .ok jr
    | none => .error (.jobRetrival jobId)

/-- One entry of the `job_runs` list in the `POST api/batch/` response. -/
structure PostedJobRun where
  id : String
  name : String
  param_values : JobParams
deriving DecidableEq, Repr

/-- The JSON body of a successful `POST api/batch/` response. -/
structure BatchPostData where
  id : String
  job_runs : List PostedJobRun
deriving DecidableEq, Repr

/-- `_parse_jobs_from_response_data`: reads the generator name from
`job_runs[0]` (an `IndexError` when the list is empty), fetches the
generator info (propagating its HTTP error), and builds the
`(job_id: params)` dict, storing the job id under the `state` key when the
generator declares a `state` parameter. -/
def parseJobsFromResponseData (jsonData : BatchPostData)
    (genResp : HttpResponse GenInfo) : Except CoreErr (PyDict JobParams) :=
  match jsonData.job_runs with
  | [] => .error .indexError
  | _ :: _ =>
    if genResp.ok then
      let saveState :=
        (genResp.body.params.map (fun p => p.name)).contains "state"
      .ok (jsonData.job_runs.foldl
        (fun d jr =>
          dictInsert d jr.id
            (if saveState then dictInsert jr.param_values "state" (.vStr jr.id)
             else jr.param_values)) [])
    else .error (.httpError genResp.status_code)

/-- `submit_batch` of `infinity_core/batch.py`: one `POST api/batch/` call
(whose `build_request` rejects an empty token or server), then
`raise_for_status`, then `_parse_jobs_from_response_data`.  The two remote
responses are supplied as oracles. -/
def submitBatchCore (token _generator : String) (jobType : JobType)
    (_jobParams : List JobParams) (name : Option String) (server : String)
    (postResp : HttpResponse BatchPostData) (genResp : HttpResponse GenInfo) :
    Except CoreErr CoreBatch :=
  let batchName := name.getD ""
  if token = "" then .error (.valueError "token")
  else if server = "" then .error (.valueError "server")
  else if postResp.ok then
    match parseJobsFromResponseData postResp.body genResp with
    | .error e => .error e
    | .ok jobs =>
      .ok ⟨token, postResp.body.id, batchName, jobs, server, jobType⟩
  else .error (.httpError postResp.status_code)

/-- The mutable state of a `Session` (dataclass fields). -/
structure SessionState where
  token : String
  generator : String
  server : String
  batches : List CoreBatch
  generatorInfo : GenInfo
deriving DecidableEq, Repr

/-- An exception escaping `Session.submit`: the preview rejection
(`ValueError`), a `ParameterValidationError` carrying the per-job result
list of whichever validation pass failed, a Python error raised inside
validation itself, or an error from `submit_batch`. -/
inductive SessionSubmitErr where
  | previewUnsupported
  | paramValidation (errors : List (Option String))
  | pyError (e : PyErr)
  | submitFailed (e : CoreErr)
deriving DecidableEq, Repr

/-- `Session.submit`, as an explicit state transition: the returned
`SessionState` is the session after the call.  Control flow of the source:
preview gate, first validation pass over the user-supplied params, per-job
completion, second validation pass over the completed params, dispatch to
`submit_batch`, and — only on success — `self.batches.append(batch)`.
The random source and the two remote responses are oracles. -/
def sessionSubmit (s : SessionState) (jobParamsList : List JobParams)
    (isPreview randomSample : Bool) (batchName : Option String)
    (rng : Sampler) (postResp : HttpResponse BatchPostData)
    (genResp : HttpResponse GenInfo) :
    SessionState × Except SessionSubmitErr CoreBatch :=
  if isPreview && !previewAllowed s.generatorInfo then
    (s, .error .previewUnsupported)
  else
    match validateJobParams (parameterInfo s.generatorInfo) jobParamsList with
    | .error e => (s, .error (.pyError e))
    | .ok userInputErrors =>
      if !userInputErrors.all (fun v => v.isNone) then
        (s, .error (.paramValidation userInputErrors))
      else
        match validateJobParams (parameterInfo s.generatorInfo)
            (jobParamsList.map (fun jp =>
              completeOne (parameterInfo s.generatorInfo) rng randomSample jp)) with
        | .error e => (s, .error (.pyError e))
        | .ok errors =>
          if !errors.all (fun v => v.isNone) then
            (s, .error (.paramValidation errors))
          else
            match submitBatchCore s.token s.generator
                (if isPreview then JobType.PREVIEW else JobType.STANDARD)
                (jobParamsList.map (fun jp =>
                  completeOne (parameterInfo s.generatorInfo) rng randomSample jp))
                batchName s.server postResp genResp with
            | .error e => (s, .error (.submitFailed e))
            | .ok batch =>
              ({ s with batches := s.batches ++ [batch] }, .ok batch)

/-- Whether one job's `_download_and_extract_zip` worker raised. -/
inductive JobOutcome where
  | success
  | failure
deriving DecidableEq, Repr

/-- The slice of the filesystem `Batch.download` manipulates: whether the
target directory still exists, and the per-job subdirectories inside it
(created by each successful extraction, named by job id). -/
structure FsState where
  outDirExists : Bool
  jobDirs : List String
deriving DecidableEq, Repr

/-- The result-collection loop of `Batch.download` over
`concurrent.futures.as_completed`, sequentialized: the input lists each
downloadable job (id and outcome) in completion order, and each job's
download + extraction effect is applied when its future is processed.  On
success the job's subdirectory appears in the target directory and the
completed counter is bumped.  On failure the code runs
`shutil.rmtree(out_path)` where `out_path` is the third element of the
job's `download_info` tuple — which is the shared target directory
`out_dir`, not the job's own subdirectory — so the whole target directory
(all extracted jobs) is removed if it still exists, and the job id is
appended to `failed_jobs`. -/
def processDownloadResults :
    List (String × JobOutcome) → FsState → FsState × List String × Nat
  | [], fs => (fs, [], 0)
  | (jid, .success) :: rest, fs =>
    let next := processDownloadResults rest ⟨true, fs.jobDirs ++ [jid]⟩
    (next.1, next.2.1, next.2.2 + 1)
  | (jid, .failure) :: rest, fs =>
    let fs1 := if fs.outDirExists then (⟨false, []⟩ : FsState) else fs
    let next := processDownloadResults rest fs1
    (next.1, jid :: next.2.1, next.2.2)

/-- The tail of `Batch.download` after the worker pool is set up: process
all futures, then raise `DownloadError` naming every failed job id if the
completed count falls short of the total.  The initial state has the
target directory freshly created (with its `batch_id.txt` marker) and no
job subdirectories. -/
def downloadRun (jobs : List (String × JobOutcome)) :
    FsState × Except CoreErr Unit :=
  let res := processDownloadResults jobs ⟨true, []⟩
  (res.1,
    if res.2.2 ≠ jobs.length then .error (.downloadError res.2.1) else .ok ())

end InfinityCore

namespace InfinityCore

/-! Concrete fixtures used to evaluate the embedded code on the inputs the
claims single out. -/

/-- Schema of the boundary-value scenario: a numeric parameter `n` with
`min=1, max=5` and a choice parameter `c` with `choices=["A","B"]`. -/
def pinfoBounds : PyDict ParamSpec :=
  [("n", ⟨some "int", .vInt 1, some ⟨some 1, some 5, none⟩⟩),
   ("c", ⟨some "str", .vStr "A", some ⟨none, none, some [.vStr "A", .vStr "B"]⟩⟩)]

/-- A schema with one `int` parameter whose `options` field is `None`, as
`Session.parameter_info` produces when the generator declares no options. -/
def pinfoNullOptions : PyDict ParamSpec :=
  [("p", ⟨some "int", .vInt 1, none⟩)]

/-- A schema with one `int` parameter and an empty options dict. -/
def pinfoIntOnly : PyDict ParamSpec :=
  [("n", ⟨some "int", .vInt 1, some ⟨none, none, none⟩⟩)]

/-- The composite type check of `_validate_params` for a declared type
string: the `ty_str_to_allowed_python_ty_set` lookup followed by
`any([isinstance(uv, ty) for ty in expected_types])`. -/
def properForDeclaredType (t : String) (v : PValue) : Bool :=
  match tyStrToAllowedPythonTySet t with
  | some expected => isProperType expected v
  | none => false

/-- Parameter spec with declared type `t` and an empty options dict. -/
def specOfType (t : String) : ParamSpec := ⟨some t, .vNull, some ⟨none, none, none⟩⟩

/-- A single-parameter schema with declared type `t`. -/
def pinfoOfType (t : String) : PyDict ParamSpec := [("p", specOfType t)]

/-- A batch whose locally-known job collection is non-empty. -/
def batchOneJob : CoreBatch := ⟨"tok", "batch-1", "", [("job-1", [])], "srv", .STANDARD⟩

/-- A successful (HTTP 200) summary response reporting zero jobs. -/
def summaryRespEmpty : HttpResponse BatchSummary := ⟨true, 200, ⟨[]⟩⟩

/-- A successful summary response reporting one completed job `j1`. -/
def summaryRespOne : HttpResponse BatchSummary :=
  ⟨true, 200, ⟨[⟨"j1", false, some "url"⟩]⟩⟩

/-- Schema for the merge witness: one `int` parameter with default 3. -/
def pinfoMergeW : PyDict ParamSpec :=
  [("p", ⟨some "int", .vInt 3, some ⟨some 0, some 9, none⟩⟩)]

/-- A concrete deterministic sampler. -/
def samplerW : Sampler := ⟨fun _ => .vNull, fun _ _ => 7, fun _ _ => 0⟩

/-- Generator info for the submit witness (previews allowed). -/
def genInfoW : GenInfo :=
  ⟨[⟨"p", some "int", .vInt 1, some ⟨some 0, some 9, none⟩⟩],
   some [("preview", .vBool true)]⟩

/-- Generator info without an `options` dict (previews not allowed). -/
def genInfoNoPreview : GenInfo :=
  ⟨[⟨"p", some "int", .vInt 1, some ⟨some 0, some 9, none⟩⟩], none⟩

/-- A session created against `genInfoW`, with no batches yet. -/
def sessionW : SessionState := ⟨"tok", "gen", "srv", [], genInfoW⟩

/-- A session created against `genInfoNoPreview`. -/
def sessionNoPreview : SessionState := ⟨"tok", "gen", "srv", [], genInfoNoPreview⟩

/-- A successful `POST api/batch/` response for the submit witness. -/
def postRespW : HttpResponse BatchPostData :=
  ⟨true, 200, ⟨"b1", [⟨"j1", "gen", [("p", .vInt 3)]⟩]⟩⟩

/-- A successful generator-info response for the submit witness. -/
def genRespW : HttpResponse GenInfo := ⟨true, 200, genInfoW⟩

/-- The batch `sessionSubmit` produces in the witness run. -/
def batchSubmitW : CoreBatch :=
  ⟨"tok", "b1", "", [("j1", [("p", .vInt 3)])], "srv", .STANDARD⟩

end InfinityCore

namespace InfinityApi

/-- A service oracle whose second and fourth responses (indices 1 and 3)
are accepted and all others are rejected. -/
def svcSecondOk : Nat → ApiResponse := fun i =>
  if i = 1 then ⟨true, 201, "batch-7", "job-b"⟩
  else if i = 3 then ⟨true, 201, "other", "job-d"⟩
  else if i = 2 then ⟨false, 500, "", ""⟩
  else ⟨false, 503, "", ""⟩

/-- A service oracle that rejects every request, with distinct statuses. -/
def svcAllFail : Nat → ApiResponse := fun i => ⟨false, 400 + i, "", ""⟩

end InfinityApi

/-! General lemmas about the Python-dict model. -/

theorem dlookup_dictInsert {α : Type} (d : PyDict α) (k : String) (v : α)
    (k' : String) :
    dlookup k' (dictInsert d k v) = if k' = k then some v else dlookup k' d := by
  induction d with
  | nil => by_cases h : k' = k <;> simp [dictInsert, dlookup, h]
  | cons a t ih =>
    obtain ⟨ka, w⟩ := a
    by_cases hak : ka = k
    · subst hak
      by_cases hk : k' = ka <;> simp [dictInsert, dlookup, hk]
    · by_cases hk' : k' = ka
      · have hk'k : ¬ k' = k := fun h => hak (hk'.symm.trans h)
        simp [dictInsert, dlookup, hak, hk', hk'k]
      · by_cases hkk : k' = k
        · subst hkk
          simp [dictInsert, dlookup, hak, hk', ih]
        · simp [dictInsert, dlookup, hak, hk', hkk, ih]

theorem dlookup_append {α : Type} (a b : PyDict α) (k : String) :
    dlookup k (a ++ b) = optOr (dlookup k a) (dlookup k b) := by
  induction a with
  | nil => simp [dlookup, optOr]
  | cons x t ih =>
    obtain ⟨kx, w⟩ := x
    by_cases h : k = kx <;> simp [dlookup, optOr, h, ih]

theorem dlookup_foldl_dictInsert {α : Type} (l : List (String × α))
    (d : PyDict α) (k : String) :
    dlookup k (l.foldl (fun d kv => dictInsert d kv.1 kv.2) d) =
      optOr (dlookup k l.reverse) (dlookup k d) := by
  induction l generalizing d with
  | nil => simp [dlookup, optOr]
  | cons a t ih =>
    simp only [List.foldl_cons, List.reverse_cons]
    rw [ih, dlookup_append, dlookup_dictInsert]
    by_cases hk : k = a.1
    · cases h : dlookup k t.reverse <;>
        simp [optOr, dlookup, hk]
    · cases h : dlookup k t.reverse <;>
        simp [optOr, dlookup, hk]

theorem dlookup_pyDictOfItems {α : Type} (l : List (String × α)) (k : String) :
    dlookup k (pyDictOfItems l) = dlookup k l.reverse := by
  unfold pyDictOfItems
  rw [dlookup_foldl_dictInsert]
  cases h : dlookup k l.reverse <;> simp [optOr, dlookup]

theorem dlookup_pyMerge {α : Type} (a b : PyDict α) (k : String) :
    dlookup k (pyMerge a b) = optOr (dlookup k b.reverse) (dlookup k a.reverse) := by
  unfold pyMerge
  rw [dlookup_pyDictOfItems, List.reverse_append, dlookup_append]

theorem dlookup_none_of_not_mem_keys {α : Type} (d : PyDict α) (k : String)
    (h : k ∉ dictKeys d) : dlookup k d = none := by
  induction d with
  | nil => rfl
  | cons a t ih =>
    simp only [dictKeys, List.map_cons, List.mem_cons, not_or] at h
    obtain ⟨h1, h2⟩ := h
    simp [dlookup, h1, ih (by simpa [dictKeys] using h2)]

theorem mem_of_dlookup_eq_some {α : Type} (d : PyDict α) (k : String) (v : α)
    (h : dlookup k d = some v) : (k, v) ∈ d := by
  induction d with
  | nil => simp [dlookup] at h
  | cons a t ih =>
    obtain ⟨ka, w⟩ := a
    simp only [dlookup] at h
    split at h
    · rename_i hk
      obtain rfl := Option.some.inj h
      rw [hk]
      exact List.mem_cons_self _ _
    · exact List.mem_cons_of_mem _ (ih h)

theorem dlookup_reverse_of_nodup {α : Type} (d : PyDict α)
    (h : (dictKeys d).Nodup) (k : String) :
    dlookup k d.reverse = dlookup k d := by
  induction d with
  | nil => rfl
  | cons a t ih =>
    obtain ⟨ka, w⟩ := a
    simp only [dictKeys, List.map_cons, List.nodup_cons] at h
    obtain ⟨hka, ht⟩ := h
    simp only [List.reverse_cons]
    rw [dlookup_append, ih ht]
    by_cases hk : k = ka
    · subst hk
      rw [dlookup_none_of_not_mem_keys t k hka]
      simp [optOr, dlookup]
    · cases hl : dlookup k t <;> simp [optOr, dlookup, hk, hl]

theorem dictInsert_of_dlookup_none {α : Type} (d : PyDict α) (k : String)
    (v : α) (h : dlookup k d = none) : dictInsert d k v = d ++ [(k, v)] := by
  induction d with
  | nil => rfl
  | cons a t ih =>
    obtain ⟨ka, w⟩ := a
    simp only [dlookup] at h
    by_cases hk : k = ka
    · rw [if_pos hk] at h; exact absurd h (by simp)
    · rw [if_neg hk] at h
      have hka : ¬ ka = k := fun hh => hk hh.symm
      simp [dictInsert, hka, ih h]

theorem pyDictOfItems_eq_self {α : Type} (l : List (String × α))
    (h : (dictKeys l).Nodup) : pyDictOfItems l = l := by
  suffices hgen : ∀ d : PyDict α, (∀ k, k ∈ dictKeys l → dlookup k d = none) →
      l.foldl (fun d kv => dictInsert d kv.1 kv.2) d = d ++ l by
    simpa [pyDictOfItems] using hgen [] (fun k _ => rfl)
  induction l with
  | nil => intro d _; simp
  | cons a t ih =>
    intro d hd
    simp only [dictKeys, List.map_cons, List.nodup_cons] at h
    obtain ⟨hka, ht⟩ := h
    simp only [List.foldl_cons]
    rw [dictInsert_of_dlookup_none d a.1 a.2 (hd a.1 (by simp [dictKeys]))]
    rw [ih ht]
    · simp
    · intro k hk
      have hmem : k ∈ dictKeys (a :: t) := by
        simp only [dictKeys, List.map_cons, List.mem_cons]
        exact Or.inr hk
      rw [dlookup_append, hd k hmem]
      have hknea : ¬ k = a.1 := fun he => hka (he ▸ hk)
      simp [optOr, dlookup, hknea]

theorem dictKeys_dictInsert {α : Type} (d : PyDict α) (k : String) (v : α) :
    dictKeys (dictInsert d k v) =
      if k ∈ dictKeys d then dictKeys d else dictKeys d ++ [k] := by
  induction d with
  | nil => simp [dictInsert, dictKeys]
  | cons a t ih =>
    obtain ⟨ka, w⟩ := a
    by_cases hak : ka = k
    · subst hak
      simp [dictInsert, dictKeys]
    · have hk : ¬ k = ka := fun hh => hak hh.symm
      simp only [dictInsert, if_neg hak]
      have hcons : dictKeys ((ka, w) :: dictInsert t k v) =
          ka :: dictKeys (dictInsert t k v) := rfl
      rw [hcons, ih]
      by_cases hmem : k ∈ dictKeys t
      · rw [if_pos hmem,
          if_pos (show k ∈ dictKeys ((ka, w) :: t) by
            simp only [dictKeys, List.map_cons, List.mem_cons]
            exact Or.inr hmem)]
        rfl
      · rw [if_neg hmem,
          if_neg (show ¬ k ∈ dictKeys ((ka, w) :: t) by
            simp only [dictKeys, List.map_cons, List.mem_cons]
            rintro (h1 | h2)
            · exact hk h1
            · exact hmem h2)]
        rfl

theorem dictKeys_pyDictOfItems_nodup {α : Type} (l : List (String × α)) :
    (dictKeys (pyDictOfItems l)).Nodup := by
  suffices hgen : ∀ d : PyDict α, (dictKeys d).Nodup →
      (dictKeys (l.foldl (fun d kv => dictInsert d kv.1 kv.2) d)).Nodup by
    exact hgen [] List.nodup_nil
  induction l with
  | nil => intro d hd; simpa using hd
  | cons a t ih =>
    intro d hd
    simp only [List.foldl_cons]
    apply ih
    rw [dictKeys_dictInsert]
    by_cases hmem : a.1 ∈ dictKeys d
    · simpa [hmem] using hd
    · simp only [hmem, if_false]
      simpa [List.nodup_append] using ⟨hd, hmem⟩

namespace InfinityApi

/-! Characterization of the two phases of `_submit_jobs`. -/

theorem submitWithBatchId_spec {P : Type} (svc : Nat → ApiResponse)
    (gen buid : String) (ps : List P) (j0 : Nat) :
    submitWithBatchId svc gen buid ps j0 =
      ((List.zip (List.range' j0 ps.length) ps).filterMap
         (fun pr => if (svc pr.1).ok then some ⟨(svc pr.1).id, pr.2⟩ else none),
       (List.zip (List.range' j0 ps.length) ps).filterMap
         (fun pr => if (svc pr.1).ok then none
           else some ⟨(svc pr.1).status_code, pr.2⟩),
       ps.map (fun p => ⟨gen, p, some buid⟩)) := by
  induction ps generalizing j0 with
  | nil => rfl
  | cons p rest ih =>
    cases h : (svc j0).ok with
    | true =>
      simp [submitWithBatchId, h, ih, List.range'_succ]
    | false =>
      simp [submitWithBatchId, h, ih, List.range'_succ]

theorem seekFirstSuccess_found {P : Type} (svc : Nat → ApiResponse)
    (gen : String) (ps : List P) (j0 K : Nat) (hK : K < ps.length)
    (hb : ∀ i, i < K → (svc (j0 + i)).ok = false)
    (hs : (svc (j0 + K)).ok = true)
    (facc : List (FailedJobRequest P)) (sacc : List (JobRequestPayload P))
    (ls : Option Nat) :
    seekFirstSuccess svc gen ps j0 facc sacc ls =
      .found (svc (j0 + K)).batch_id ⟨(svc (j0 + K)).id, ps.get ⟨K, hK⟩⟩
        (facc ++ List.zipWith (fun i p => FailedJobRequest.mk (svc i).status_code p)
          (List.range' j0 K) (ps.take K))
        (sacc ++ (ps.take (K + 1)).map (fun p => JobRequestPayload.mk gen p none))
        (ps.drop (K + 1)) (j0 + (K + 1)) := by
  induction ps generalizing j0 K facc sacc ls with
  | nil => exact absurd hK (by simp)
  | cons p rest ih =>
    cases K with
    | zero =>
      have hok : (svc j0).ok = true := by simpa using hs
      simp [seekFirstSuccess, hok]
    | succ K' =>
      have hfail : (svc j0).ok = false := by
        simpa using hb 0 (Nat.succ_pos K')
      have hK' : K' < rest.length := by simpa using Nat.lt_of_succ_lt_succ hK
      have hb' : ∀ i, i < K' → (svc (j0 + 1 + i)).ok = false := by
        intro i hi
        have h0 := hb (i + 1) (by omega)
        have harg : j0 + (i + 1) = j0 + 1 + i := by omega
        rwa [harg] at h0
      have hs' : (svc (j0 + 1 + K')).ok = true := by
        have harg : j0 + 1 + K' = j0 + (K' + 1) := by omega
        rwa [harg]
      have hstep : seekFirstSuccess svc gen (p :: rest) j0 facc sacc ls =
          seekFirstSuccess svc gen rest (j0 + 1)
            (facc ++ [⟨(svc j0).status_code, p⟩]) (sacc ++ [⟨gen, p, none⟩])
            (some (svc j0).status_code) := by
        simp [seekFirstSuccess, hfail]
      rw [hstep, ih (j0 + 1) K' hK' hb' hs']
      have harg1 : j0 + 1 + K' = j0 + (K' + 1) := by omega
      have harg2 : j0 + 1 + (K' + 1) = j0 + (K' + 1 + 1) := by omega
      simp [harg1, harg2, List.range'_succ, List.append_assoc]

theorem seekFirstSuccess_exhausted {P : Type} (svc : Nat → ApiResponse)
    (gen : String) (ps : List P) (j0 : Nat)
    (hall : ∀ i, i < ps.length → (svc (j0 + i)).ok = false)
    (facc : List (FailedJobRequest P)) (sacc : List (JobRequestPayload P))
    (ls : Option Nat) :
    seekFirstSuccess svc gen ps j0 facc sacc ls =
      .exhausted
        (facc ++ List.zipWith (fun i p => FailedJobRequest.mk (svc i).status_code p)
          (List.range' j0 ps.length) ps)
        (sacc ++ ps.map (fun p => JobRequestPayload.mk gen p none))
        (if ps.isEmpty then ls
         else some (svc (j0 + ps.length - 1)).status_code) := by
  induction ps generalizing j0 facc sacc ls with
  | nil => simp [seekFirstSuccess]
  | cons p rest ih =>
    have hfail : (svc j0).ok = false := by
      simpa using hall 0 (by simp)
    have hall' : ∀ i, i < rest.length → (svc (j0 + 1 + i)).ok = false := by
      intro i hi
      have h0 := hall (i + 1) (by simp; omega)
      have harg : j0 + (i + 1) = j0 + 1 + i := by omega
      rwa [harg] at h0
    have hstep : seekFirstSuccess svc gen (p :: rest) j0 facc sacc ls =
        seekFirstSuccess svc gen rest (j0 + 1)
          (facc ++ [⟨(svc j0).status_code, p⟩]) (sacc ++ [⟨gen, p, none⟩])
          (some (svc j0).status_code) := by
      simp [seekFirstSuccess, hfail]
    rw [hstep, ih (j0 + 1) hall']
    cases rest with
    | nil => simp [List.range'_succ]
    | cons q qs =>
      have h2 : j0 + 1 + qs.length = j0 + (qs.length + 1) := by omega
      simp [List.range'_succ, List.append_assoc, h2]

end InfinityApi

namespace InfinityApi

/-- C1.  For every service oracle, generator and non-empty parameter list
in which submission K (0-indexed) is the first the service accepts,
`_submit_jobs` returns the batch id taken from response K, records jobs
`0..K-1` as failed requests with their HTTP status codes and original
params, submits every job after K with that batch id attached to the
payload, and returns the successful records in submission order. -/
theorem submit_jobs_first_success_round_trip {P : Type}
    (svc : Nat → ApiResponse) (generator : String) (jobParams : List P)
    (K : Nat) (hK : K < jobParams.length)
    (hbefore : ∀ i, i < K → (svc i).ok = false)
    (hfirst : (svc K).ok = true) :
    submitJobs svc generator jobParams none = Except.ok
      ((svc K).batch_id,
       ⟨(svc K).id, jobParams.get ⟨K, hK⟩⟩ ::
         (List.zip (List.range' (K + 1) (jobParams.length - (K + 1)))
             (jobParams.drop (K + 1))).filterMap
           (fun pr => if (svc pr.1).ok then some ⟨(svc pr.1).id, pr.2⟩ else none),
       List.zipWith (fun i p => FailedJobRequest.mk (svc i).status_code p)
           (List.range' 0 K) (jobParams.take K) ++
         (List.zip (List.range' (K + 1) (jobParams.length - (K + 1)))
             (jobParams.drop (K + 1))).filterMap
           (fun pr => if (svc pr.1).ok then none
             else some ⟨(svc pr.1).status_code, pr.2⟩),
       (jobParams.take (K + 1)).map (fun p => JobRequestPayload.mk generator p none) ++
         (jobParams.drop (K + 1)).map
           (fun p => JobRequestPayload.mk generator p (some (svc K).batch_id))) := by
  have hb0 : ∀ i, i < K → (svc (0 + i)).ok = false := by
    intro i hi
    simpa using hbefore i hi
  have hs0 : (svc (0 + K)).ok = true := by simpa using hfirst
  have hdrop : (jobParams.drop (K + 1)).length = jobParams.length - (K + 1) := by
    simp
  simp only [submitJobs]
  rw [seekFirstSuccess_found svc generator jobParams 0 K hK hb0 hs0 [] [] none]
  simp only [submitWithBatchId_spec, hdrop, Nat.zero_add, List.nil_append]

/-- C2.  For every parameter list (the empty one included) in which the
service accepts no submission, `submit_batch_to_api` raises the
all-jobs-failed `ValueError` — carrying the last obtained response's
status when there was one, and no HTTP detail when there was none — and
returns no batch. -/
theorem submit_batch_all_failed {P : Type} (svc : Nat → ApiResponse)
    (token generator : String) (jobType : JobType) (jobParams : List P)
    (htok : ¬ token = "") (hgen : ¬ generator = "")
    (hall : ∀ i, i < jobParams.length → (svc i).ok = false) :
    submitBatchToApi svc token generator jobType jobParams =
      Except.error (.submitFailed (.allJobsFailed
        (if jobParams.isEmpty then none
         else some (svc (jobParams.length - 1)).status_code))) := by
  have hall0 : ∀ i, i < jobParams.length → (svc (0 + i)).ok = false := by
    intro i hi
    simpa using hall i hi
  simp only [submitBatchToApi, if_neg htok, if_neg hgen, submitJobs]
  rw [seekFirstSuccess_exhausted svc generator jobParams 0 hall0 [] [] none]
  simp

/-- Witness for C1 at a concrete input: four jobs, the second submission
(index 1) is the first the service accepts. -/
theorem submit_jobs_first_success_round_trip_witness :
    submitJobs svcSecondOk "visionfit" [10, 20, 30, 40] none = Except.ok
      ("batch-7",
       [⟨"job-b", 20⟩, ⟨"job-d", 40⟩],
       [⟨503, 10⟩, ⟨500, 30⟩],
       [⟨"visionfit", 10, none⟩, ⟨"visionfit", 20, none⟩,
        ⟨"visionfit", 30, some "batch-7"⟩, ⟨"visionfit", 40, some "batch-7"⟩]) := by
  have h := submit_jobs_first_success_round_trip svcSecondOk "visionfit"
    [10, 20, 30, 40] 1 (by decide)
    (by intro i hi
        have h0 : i = 0 := by omega
        subst h0
        rfl)
    rfl
  exact h

/-- Witness for C2 at concrete inputs: three jobs all rejected (the error
carries the last response's status), and the empty job list (no response,
no HTTP detail). -/
theorem submit_batch_all_failed_witness :
    submitBatchToApi svcAllFail "tok" "gen" JobType.STANDARD ([7, 8, 9] : List Nat) =
        Except.error (.submitFailed (.allJobsFailed (some 402))) ∧
      submitBatchToApi svcAllFail "tok" "gen" JobType.PREVIEW ([] : List Nat) =
        Except.error (.submitFailed (.allJobsFailed none)) := by
  have h1 := submit_batch_all_failed svcAllFail "tok" "gen" JobType.STANDARD
    ([7, 8, 9] : List Nat) (by decide) (by decide) (fun _ _ => rfl)
  have h2 := submit_batch_all_failed svcAllFail "tok" "gen" JobType.PREVIEW
    ([] : List Nat) (by decide) (by decide) (fun i hi => absurd hi (Nat.not_lt_zero i))
  exact ⟨h1, h2⟩

end InfinityApi

namespace InfinityCore

/-! Supporting lemmas: whenever `_validate_params` completes without a
Python error, the loop examines every entry and no recorded violation is
lost — the collect-all semantics holds on the raise-free domain. -/

theorem mem_setAdd_self (s : List String) (k : String) : k ∈ setAdd s k := by
  unfold setAdd
  split
  · assumption
  · simp

theorem mem_setAdd_of_mem (s : List String) (k x : String) (hx : x ∈ s) :
    x ∈ setAdd s k := by
  unfold setAdd
  split
  · exact hx
  · simp [hx]

theorem validateLoop_mono (pinfo : PyDict ParamSpec)
    (l : List (String × PValue)) (u0 : List String) (t0 : List TypeViolation)
    (c0 : List ConstraintViolation) (u : List String) (t : List TypeViolation)
    (c : List ConstraintViolation)
    (h : validateLoop pinfo l u0 t0 c0 = .ok (u, t, c)) :
    (∀ x, x ∈ u0 → x ∈ u) ∧ (∀ x, x ∈ t0 → x ∈ t) ∧ (∀ x, x ∈ c0 → x ∈ c) := by
  induction l generalizing u0 t0 c0 with
  | nil =>
    simp only [validateLoop, Except.ok.injEq, Prod.mk.injEq] at h
    obtain ⟨h1, h2, h3⟩ := h
    subst h1 h2 h3
    exact ⟨fun x hx => hx, fun x hx => hx, fun x hx => hx⟩
  | cons kv rest ih =>
    obtain ⟨k, v⟩ := kv
    simp only [validateLoop] at h
    split at h
    · have hm := ih _ _ _ h
      exact ⟨fun x hx => hm.1 x (mem_setAdd_of_mem u0 k x hx), hm.2.1, hm.2.2⟩
    · split at h
      · exact Except.noConfusion h
      · split at h
        · split at h
          · exact Except.noConfusion h
          · split at h
            · exact Except.noConfusion h
            · have hm := ih _ _ _ h
              exact ⟨hm.1, hm.2.1, fun x hx => hm.2.2 x (by simp [hx])⟩
        · have hm := ih _ _ _ h
          exact ⟨hm.1, fun x hx => hm.2.1 x (by simp [hx]), hm.2.2⟩

theorem validateLoop_collects (pinfo : PyDict ParamSpec)
    (l : List (String × PValue)) (u0 : List String) (t0 : List TypeViolation)
    (c0 : List ConstraintViolation) (u : List String) (t : List TypeViolation)
    (c : List ConstraintViolation)
    (h : validateLoop pinfo l u0 t0 c0 = .ok (u, t, c)) :
    (∀ k v, (k, v) ∈ l → dlookup k pinfo = none → k ∈ u) ∧
      (∀ k v spec expected, (k, v) ∈ l → dlookup k pinfo = some spec →
        expectedTypesOf spec.type = .ok expected →
        isProperType expected v = false →
        TypeViolation.mk k v.runtimeTy expected ∈ t) ∧
      (∀ k v spec expected opts viols, (k, v) ∈ l →
        dlookup k pinfo = some spec →
        expectedTypesOf spec.type = .ok expected →
        isProperType expected v = true →
        spec.options = some opts →
        checkConstraints k v opts = .ok viols →
        ∀ x, x ∈ viols → x ∈ c) := by
  induction l generalizing u0 t0 c0 with
  | nil =>
    refine ⟨?_, ?_, ?_⟩
    · intro k v hmem
      exact absurd hmem (by simp)
    · intro k v spec expected hmem
      exact absurd hmem (by simp)
    · intro k v spec expected opts viols hmem
      exact absurd hmem (by simp)
  | cons kv rest ih =>
    obtain ⟨k', v'⟩ := kv
    have hstep := h
    simp only [validateLoop] at hstep
    split at hstep
    · rename_i hl
      have hmono := validateLoop_mono pinfo rest _ _ _ _ _ _ hstep
      have hrest := ih _ _ _ hstep
      refine ⟨?_, ?_, ?_⟩
      · intro k v hmem hnone
        rcases List.mem_cons.mp hmem with hhd | htl
        · injection hhd with hk hv
          subst hk
          exact hmono.1 k (mem_setAdd_self u0 k)
        · exact hrest.1 k v htl hnone
      · intro k v spec expected hmem hsome hexp hbad
        rcases List.mem_cons.mp hmem with hhd | htl
        · injection hhd with hk hv
          subst hk
          rw [hl] at hsome
          exact Option.noConfusion hsome
        · exact hrest.2.1 k v spec expected htl hsome hexp hbad
      · intro k v spec expected opts viols hmem hsome hexp hgood hopts hcon
        rcases List.mem_cons.mp hmem with hhd | htl
        · injection hhd with hk hv
          subst hk
          rw [hl] at hsome
          exact Option.noConfusion hsome
        · exact hrest.2.2 k v spec expected opts viols htl hsome hexp hgood
            hopts hcon
    · rename_i spec' hl
      split at hstep
      · exact Except.noConfusion hstep
      · rename_i expected' he
        split at hstep
        · rename_i hproper
          split at hstep
          · exact Except.noConfusion hstep
          · rename_i opts' ho
            split at hstep
            · exact Except.noConfusion hstep
            · rename_i newCv hc
              have hmono := validateLoop_mono pinfo rest _ _ _ _ _ _ hstep
              have hrest := ih _ _ _ hstep
              refine ⟨?_, ?_, ?_⟩
              · intro k v hmem hnone
                rcases List.mem_cons.mp hmem with hhd | htl
                · injection hhd with hk hv
                  subst hk
                  rw [hl] at hnone
                  exact Option.noConfusion hnone
                · exact hrest.1 k v htl hnone
              · intro k v spec expected hmem hsome hexp hbad
                rcases List.mem_cons.mp hmem with hhd | htl
                · injection hhd with hk hv
                  subst hk hv
                  rw [hl] at hsome
                  obtain rfl := Option.some.inj hsome
                  rw [he] at hexp
                  obtain rfl := Except.ok.inj hexp
                  rw [hproper] at hbad
                  exact Bool.noConfusion hbad
                · exact hrest.2.1 k v spec expected htl hsome hexp hbad
              · intro k v spec expected opts viols hmem hsome hexp hgood
                  hopts hcon
                rcases List.mem_cons.mp hmem with hhd | htl
                · injection hhd with hk hv
                  subst hk hv
                  rw [hl] at hsome
                  obtain rfl := Option.some.inj hsome
                  rw [ho] at hopts
                  obtain rfl := Option.some.inj hopts
                  rw [hc] at hcon
                  obtain rfl := Except.ok.inj hcon
                  intro x hx
                  exact hmono.2.2 x (by simp [hx])
                · exact hrest.2.2 k v spec expected opts viols htl hsome hexp
                    hgood hopts hcon
        · rename_i hproper
          have hmono := validateLoop_mono pinfo rest _ _ _ _ _ _ hstep
          have hrest := ih _ _ _ hstep
          have hproperF : isProperType expected' v' = false := by
            simpa using hproper
          refine ⟨?_, ?_, ?_⟩
          · intro k v hmem hnone
            rcases List.mem_cons.mp hmem with hhd | htl
            · injection hhd with hk hv
              subst hk
              rw [hl] at hnone
              exact Option.noConfusion hnone
            · exact hrest.1 k v htl hnone
          · intro k v spec expected hmem hsome hexp hbad
            rcases List.mem_cons.mp hmem with hhd | htl
            · injection hhd with hk hv
              subst hk hv
              rw [hl] at hsome
              obtain rfl := Option.some.inj hsome
              rw [he] at hexp
              obtain rfl := Except.ok.inj hexp
              exact hmono.2.1 _ (by simp)
            · exact hrest.2.1 k v spec expected htl hsome hexp hbad
          · intro k v spec expected opts viols hmem hsome hexp hgood hopts hcon
            rcases List.mem_cons.mp hmem with hhd | htl
            · injection hhd with hk hv
              subst hk hv
              rw [hl] at hsome
              obtain rfl := Option.some.inj hsome
              rw [he] at hexp
              obtain rfl := Except.ok.inj hexp
              rw [hgood] at hproperF
              exact Bool.noConfusion hproperF
            · exact hrest.2.2 k v spec expected opts viols htl hsome hexp
                hgood hopts hcon

theorem validateParams_ok_none_iff (pinfo : PyDict ParamSpec)
    (up : PyDict PValue) (u : List String) (t : List TypeViolation)
    (c : List ConstraintViolation)
    (h : validateBuckets pinfo up = .ok (u, t, c)) :
    (validateParams pinfo up = .ok none ↔ (u = [] ∧ t = [] ∧ c = [])) := by
  unfold validateParams
  rw [h]
  dsimp only
  by_cases hcond : (u.isEmpty && t.isEmpty && c.isEmpty) = true
  · rw [if_pos hcond]
    simp only [Bool.and_eq_true, List.isEmpty_iff] at hcond
    simp [hcond.1.1, hcond.1.2, hcond.2]
  · rw [if_neg hcond]
    constructor
    · intro hh
      exact Option.noConfusion (Except.ok.inj hh)
    · rintro ⟨rfl, rfl, rfl⟩
      exact absurd rfl hcond

/-- C7.  Inclusive numeric bounds and choice membership at the boundary:
with `min=1, max=5` the values 0 and 6 are reported as constraint
violations (with constraint kind, constraint value and actual value) while
1 and 5 are not; with `choices=["A","B"]` the value `"C"` violates while
`"A"` and `"B"` do not. -/
theorem validate_boundary_values :
    validateBuckets pinfoBounds [("n", .vInt 0)] =
        .ok ([], [], [.minViol "n" 1 (.vInt 0)]) ∧
      validateBuckets pinfoBounds [("n", .vInt 6)] =
        .ok ([], [], [.maxViol "n" 5 (.vInt 6)]) ∧
      validateParams pinfoBounds [("n", .vInt 1)] = .ok none ∧
      validateParams pinfoBounds [("n", .vInt 5)] = .ok none ∧
      validateBuckets pinfoBounds [("c", .vStr "C")] =
        .ok ([], [], [.choicesViol "c" [.vStr "A", .vStr "B"] (.vStr "C")]) ∧
      validateParams pinfoBounds [("c", .vStr "A")] = .ok none ∧
      validateParams pinfoBounds [("c", .vStr "B")] = .ok none :=
  ⟨rfl, rfl, rfl, rfl, rfl, rfl, rfl⟩

/-- C4 (code bug).  On a schema whose parameter carries `options = None` —
which `parameter_info` produces via `.get` for a generator that declares
no options — `_validate_params` evaluates `"min" in None` and raises
`TypeError` for a well-typed user value, instead of returning a
structured result. -/
theorem validate_null_options_raises :
    validateParams pinfoNullOptions [("p", .vInt 2)] =
      .error (.typeError "argument of type NoneType is not iterable") := rfl

/-- C3 (code bug).  With a null-options parameter iterated first,
validation raises before examining the remaining keys: the unsupported key
`zzz` is never reported and no bucketed result is returned, so not every
input key is examined. -/
theorem validate_null_options_stops_collection :
    validateParams pinfoNullOptions [("p", .vInt 2), ("zzz", .vStr "x")] =
      .error (.typeError "argument of type NoneType is not iterable") := rfl

/-- C5 (counterexample).  A Python bool passes the `int` type check because
`isinstance(True, int)` is `True` (`bool` is a subclass of `int`): the
call reports no type violation, refuting the claim that a boolean supplied
for an `int` parameter is reported. -/
theorem bool_for_int_not_reported :
    validateParams pinfoIntOnly [("n", .vBool true)] = .ok none := rfl

/-- C5 (amended).  The validator's per-type acceptance with no coercion
except Python's `bool ≤ int` subclassing: `uuid` accepts exactly strings
and null; `str`, `float` and `bool` accept exactly their own runtime type;
`int` accepts ints and also bools; every non-accepted runtime type is
recorded as a type violation naming the parameter, its runtime type and
the expected types. -/
theorem type_check_acceptance (v : PValue) :
    (properForDeclaredType "uuid" v =
        (v.runtimeTy == .tyStr || v.runtimeTy == .tyNone)) ∧
      (properForDeclaredType "str" v = (v.runtimeTy == .tyStr)) ∧
      (properForDeclaredType "int" v =
        (v.runtimeTy == .tyInt || v.runtimeTy == .tyBool)) ∧
      (properForDeclaredType "float" v = (v.runtimeTy == .tyFloat)) ∧
      (properForDeclaredType "bool" v = (v.runtimeTy == .tyBool)) ∧
      (validateBuckets (pinfoOfType "uuid") [("p", v)] = .ok ([],
        if properForDeclaredType "uuid" v then []
        else [⟨"p", v.runtimeTy, [.tyStr, .tyNone]⟩], [])) ∧
      (validateBuckets (pinfoOfType "str") [("p", v)] = .ok ([],
        if properForDeclaredType "str" v then []
        else [⟨"p", v.runtimeTy, [.tyStr]⟩], [])) ∧
      (validateBuckets (pinfoOfType "int") [("p", v)] = .ok ([],
        if properForDeclaredType "int" v then []
        else [⟨"p", v.runtimeTy, [.tyInt]⟩], [])) ∧
      (validateBuckets (pinfoOfType "float") [("p", v)] = .ok ([],
        if properForDeclaredType "float" v then []
        else [⟨"p", v.runtimeTy, [.tyFloat]⟩], [])) ∧
      (validateBuckets (pinfoOfType "bool") [("p", v)] = .ok ([],
        if properForDeclaredType "bool" v then []
        else [⟨"p", v.runtimeTy, [.tyBool]⟩], [])) := by
  cases v <;> exact ⟨rfl, rfl, rfl, rfl, rfl, rfl, rfl, rfl, rfl, rfl⟩

/-- C8 (counterexample).  A locally non-empty batch and a successful remote
summary reporting zero jobs: `get_batch_summary_data` returns the empty
summary instead of raising a retrieval error. -/
theorem empty_summary_returned_not_raised :
    batchOneJob.num_jobs = 1 ∧
      getBatchSummaryData batchOneJob summaryRespEmpty =
        .ok (BatchSummary.mk []) :=
  ⟨rfl, rfl⟩

/-- C8 (amended).  The batch-summary query performs no zero-jobs
consistency check: whenever the HTTP call succeeds it returns the remote
summary unchanged — even an empty one for a batch whose local job
collection is non-empty — and raises only the transport error otherwise;
the distinct `JobRetrivalError` is raised only by the per-job summary
lookup when the requested job id is absent from the summary. -/
theorem batch_summary_no_zero_jobs_check (b : CoreBatch)
    (resp : HttpResponse BatchSummary) (hok : resp.ok = true)
    (_hne : ¬ b.jobs = []) :
    getBatchSummaryData b resp = .ok resp.body ∧
      (∀ e, ¬ getBatchSummaryData b resp = .error e) ∧
      (∀ jobId, resp.body.job_runs.find? (fun jr => jr.id == jobId) = none →
        getJobSummaryData b resp jobId = .error (.jobRetrival jobId)) := by
  have h1 : getBatchSummaryData b resp = .ok resp.body := by
    simp [getBatchSummaryData, hok]
  refine ⟨h1, ?_, ?_⟩
  · intro e he
    rw [h1] at he
    exact Except.noConfusion he
  · intro jobId hnone
    simp [getJobSummaryData, h1, hnone]

/-- Witness for the amended C8 theorem at concrete inputs. -/
theorem batch_summary_no_zero_jobs_check_witness :
    getBatchSummaryData batchOneJob summaryRespOne = .ok summaryRespOne.body ∧
      getJobSummaryData batchOneJob summaryRespOne "zzz" =
        .error (.jobRetrival "zzz") := by
  have h := batch_summary_no_zero_jobs_check batchOneJob summaryRespOne rfl
    (by decide)
  exact ⟨h.1, h.2.2 "zzz" rfl⟩

/-- C9 (code bug).  Two downloadable jobs; `job-a` succeeds first, then
`job-b` fails.  The failure handler runs `shutil.rmtree` on `out_path`,
the third element of the job's `download_info` tuple — which is the shared
target directory, not the failed job's own subdirectory — so afterwards
the whole directory is gone together with `job-a`'s extracted results
(`FsState.mk false []`), while the raised `DownloadError` does name every
failed job id and the call does not return normally. -/
theorem download_failure_removes_whole_directory :
    downloadRun [("job-a", .success), ("job-b", .failure)] =
      (FsState.mk false [], .error (.downloadError ["job-b"])) := rfl

/-- C6.  Per-job completion is the merge of a baseline (the schema defaults
when `random_sample` is false, a sampled job when true) with the user
mapping: user-supplied keys always win, unspecified keys take the baseline
value, and completing the empty mapping with `random_sample = false`
returns exactly the schema defaults. -/
theorem complete_merge_semantics (pinfo : PyDict ParamSpec) (rng : Sampler)
    (jp : PyDict PValue) (h : (dictKeys jp).Nodup) :
    (∀ rs k, dlookup k (completeOne pinfo rng rs jp) =
      optOr (dlookup k jp)
        (dlookup k (if rs then randomJob rng pinfo else defaultJob pinfo))) ∧
      completeOne pinfo rng false [] = defaultJob pinfo ∧
      (∀ rs k v, dlookup k jp = some v →
        dlookup k (completeOne pinfo rng rs jp) = some v) := by
  have hmain : ∀ rs k, dlookup k (completeOne pinfo rng rs jp) =
      optOr (dlookup k jp)
        (dlookup k (if rs then randomJob rng pinfo else defaultJob pinfo)) := by
    intro rs k
    cases rs with
    | false =>
      have hbase : (if false = true then randomJob rng pinfo else defaultJob pinfo)
          = defaultJob pinfo := rfl
      rw [show completeOne pinfo rng false jp = pyMerge (defaultJob pinfo) jp
        from rfl]
      rw [dlookup_pyMerge, dlookup_reverse_of_nodup jp h, hbase,
        dlookup_reverse_of_nodup (defaultJob pinfo)
          (show (dictKeys (defaultJob pinfo)).Nodup from
            dictKeys_pyDictOfItems_nodup _)]
    | true =>
      have hbase : (if true = true then randomJob rng pinfo else defaultJob pinfo)
          = randomJob rng pinfo := rfl
      rw [show completeOne pinfo rng true jp = pyMerge (randomJob rng pinfo) jp
        from rfl]
      rw [dlookup_pyMerge, dlookup_reverse_of_nodup jp h, hbase,
        dlookup_reverse_of_nodup (randomJob rng pinfo)
          (show (dictKeys (randomJob rng pinfo)).Nodup from
            dictKeys_pyDictOfItems_nodup _)]
  refine ⟨hmain, ?_, ?_⟩
  · show pyMerge (defaultJob pinfo) [] = defaultJob pinfo
    unfold pyMerge
    rw [List.append_nil]
    exact pyDictOfItems_eq_self _ (dictKeys_pyDictOfItems_nodup _)
  · intro rs k v hv
    rw [hmain rs k, hv]
    rfl

/-- Witness for the merge theorem at concrete inputs: defaults pass
through unchanged, and a user-supplied key wins under random sampling. -/
theorem complete_merge_semantics_witness :
    completeOne pinfoMergeW samplerW false [] = defaultJob pinfoMergeW ∧
      dlookup "p" (completeOne pinfoMergeW samplerW true [("p", .vInt 5)]) =
        some (.vInt 5) := by
  have h := complete_merge_semantics pinfoMergeW samplerW [("p", .vInt 5)]
    (by decide)
  exact ⟨h.2.1, h.2.2 true "p" (.vInt 5) rfl⟩

/-- C10.  `Session.submit` is atomic with respect to the session state:
every error path (preview rejection, either validation pass, a Python
error raised inside validation, or submission failure) leaves the session
unchanged, and on success exactly the returned batch is appended to
`batches` while every other field is untouched. -/
theorem session_submit_atomic (s : SessionState) (jobParamsList : List JobParams)
    (isPreview randomSample : Bool) (batchName : Option String) (rng : Sampler)
    (postResp : HttpResponse BatchPostData) (genResp : HttpResponse GenInfo) :
    ((sessionSubmit s jobParamsList isPreview randomSample batchName rng
          postResp genResp).1.token = s.token ∧
        (sessionSubmit s jobParamsList isPreview randomSample batchName rng
          postResp genResp).1.generator = s.generator ∧
        (sessionSubmit s jobParamsList isPreview randomSample batchName rng
          postResp genResp).1.server = s.server ∧
        (sessionSubmit s jobParamsList isPreview randomSample batchName rng
          postResp genResp).1.generatorInfo = s.generatorInfo) ∧
      (∀ e, (sessionSubmit s jobParamsList isPreview randomSample batchName rng
          postResp genResp).2 = .error e →
        (sessionSubmit s jobParamsList isPreview randomSample batchName rng
          postResp genResp).1 = s) ∧
      (∀ b, (sessionSubmit s jobParamsList isPreview randomSample batchName rng
          postResp genResp).2 = .ok b →
        (sessionSubmit s jobParamsList isPreview randomSample batchName rng
          postResp genResp).1.batches = s.batches ++ [b]) := by
  have key : (∃ e, sessionSubmit s jobParamsList isPreview randomSample
        batchName rng postResp genResp = (s, Except.error e)) ∨
      (∃ b, sessionSubmit s jobParamsList isPreview randomSample
        batchName rng postResp genResp =
          ({ s with batches := s.batches ++ [b] }, Except.ok b)) := by
    unfold sessionSubmit
    by_cases h1 : (isPreview && !previewAllowed s.generatorInfo) = true
    · rw [if_pos h1]
      exact Or.inl ⟨_, rfl⟩
    · rw [if_neg h1]
      cases hv1 : validateJobParams (parameterInfo s.generatorInfo)
          jobParamsList with
      | error e =>
        simp only [hv1]
        exact Or.inl ⟨_, rfl⟩
      | ok userErrs =>
        simp only [hv1]
        by_cases h2 : (!userErrs.all fun v => v.isNone) = true
        · rw [if_pos h2]
          exact Or.inl ⟨_, rfl⟩
        · rw [if_neg h2]
          cases hv2 : validateJobParams (parameterInfo s.generatorInfo)
              (jobParamsList.map (fun jp =>
                completeOne (parameterInfo s.generatorInfo) rng randomSample jp)) with
          | error e =>
            simp only [hv2]
            exact Or.inl ⟨_, rfl⟩
          | ok errs =>
            simp only [hv2]
            by_cases h3 : (!errs.all fun v => v.isNone) = true
            · rw [if_pos h3]
              exact Or.inl ⟨_, rfl⟩
            · rw [if_neg h3]
              cases hs : submitBatchCore s.token s.generator
                  (if isPreview then JobType.PREVIEW else JobType.STANDARD)
                  (jobParamsList.map (fun jp =>
                    completeOne (parameterInfo s.generatorInfo) rng randomSample jp))
                  batchName s.server postResp genResp with
              | error e =>
                simp only [hs]
                exact Or.inl ⟨_, rfl⟩
              | ok batch =>
                simp only [hs]
                exact Or.inr ⟨batch, rfl⟩
  rcases key with ⟨e, he⟩ | ⟨b, hb⟩
  · rw [he]
    refine ⟨⟨rfl, rfl, rfl, rfl⟩, ?_, ?_⟩
    · intro e' _
      rfl
    · intro b hb'
      exact Except.noConfusion hb'
  · rw [hb]
    refine ⟨⟨rfl, rfl, rfl, rfl⟩, ?_, ?_⟩
    · intro e' he'
      exact Except.noConfusion he'
    · intro b' hb'
      obtain rfl := Except.ok.inj hb'
      rfl

/-- Witness for the submit-atomicity theorem: a rejected preview request
leaves the session unchanged, and a successful submission appends exactly
the returned batch. -/
theorem session_submit_atomic_witness :
    (sessionSubmit sessionNoPreview [] true false none samplerW postRespW
        genRespW).1 = sessionNoPreview ∧
      (sessionSubmit sessionW [[("p", .vInt 3)]] false false none samplerW
        postRespW genRespW).1.batches = sessionW.batches ++ [batchSubmitW] := by
  have h1 := session_submit_atomic sessionNoPreview [] true false none
    samplerW postRespW genRespW
  have h2 := session_submit_atomic sessionW [[("p", .vInt 3)]] false false none
    samplerW postRespW genRespW
  exact ⟨h1.2.1 SessionSubmitErr.previewUnsupported rfl,
    h2.2.2 batchSubmitW rfl⟩

end InfinityCore

end Spec2Proof
